import Mathlib

/-!
Shallow embedding of `main.py` of the Py38WebsiteMonitor repository:
a health Poller (`Producer`), a Relay (`Consumer`), and a Sink
(`KConsumer`) connected by an `asyncio.Queue`, supervised by `main`.

JSON values are modelled at the abstract-syntax level: `json.dumps`
followed by `json.loads` is modelled as the identity on the `Json`
tree, numbers are rationals (Python floats round-trip exactly through
the json module), and a Python dict is an insertion-ordered
association list, exactly as CPython preserves insertion order.
-/

set_option autoImplicit false

namespace WebsiteMonitor

/-- A JSON value as handled by the Python json module: the parse tree of
`json.loads`, respectively the value handed to `json.dumps`. -/
inductive Json where
  | null
  | bool (b : Bool)
  | num (q : ℚ)
  | str (s : String)
  | arr (elems : List Json)
  | obj (fields : List (String × Json))

/-- One probe observation, as the spec data model describes it:
`observed_at` (the `timestamp` field), `status_code`
(`response_status`), `body` (`response_data`) and `latency`
(`response_time`). -/
structure HealthRecord where
  timestamp : ℚ
  response_data : String
  response_status : Int
  response_time : ℚ
deriving DecidableEq, Repr

/-- Python dict item assignment `d[k] = v`: update the value in place if
the key is present (insertion order preserved), otherwise append the
new key at the end. -/
def dictSet : List (String × Json) → String → Json → List (String × Json)
  | [], k, v => [(k, v)]
  | (k₀, v₀) :: rest, k, v =>
      if k₀ = k then (k, v) :: rest else (k₀, v₀) :: dictSet rest k v

/-- Python dict key lookup `d[k]`: the value of the first matching key,
or `none` when `d[k]` would raise `KeyError`. -/
def lookupField : List (String × Json) → String → Option Json
  | [], _ => none
  | (k₀, v) :: rest, k => if k₀ = k then some v else lookupField rest k

/-- Subscript access `j[k]` on a parsed JSON value: a key lookup when the
value is an object, an exception (modelled `none`) otherwise. -/
def jsonGet : Json → String → Option Json
  | Json.obj fields, k => lookupField fields k
  | _, _ => none

/-- The dict built by the Producer loop body (main.py lines 35-38): the
four item assignments applied to the current `health_data` dict. -/
def healthDictFrom (d : List (String × Json)) (r : HealthRecord) :
    List (String × Json) :=
  dictSet
    (dictSet
      (dictSet
        (dictSet d "timestamp" (Json.num r.timestamp))
        "response_data" (Json.str r.response_data))
      "response_status" (Json.num (r.response_status : ℚ)))
    "response_time" (Json.num (r.response_time))

/-- Encoding done by the Poller: `json.dumps(health_data)` where
`health_data` starts as the empty dict of main.py line 27 and receives
the four field assignments; modelled as the resulting JSON object
tree. -/
def encode (r : HealthRecord) : Json :=
  Json.obj (healthDictFrom [] r)

/-- Recover a Python int from a JSON number, as the status code is an
int on the wire. -/
def ratToInt (q : ℚ) : Option Int :=
  if q.den = 1 then some q.num else none

/-- Decoding done by the Sink (main.py lines 69-77): `json.loads`
followed by extraction of the four fields by key, re-materialized as a
`HealthRecord`. -/
def decode (j : Json) : Option HealthRecord :=
  match jsonGet j "timestamp", jsonGet j "response_data",
        jsonGet j "response_status", jsonGet j "response_time" with
  | some (Json.num t), some (Json.str d), some (Json.num s),
    some (Json.num rt) =>
      match ratToInt s with
      | some si =>
          some { timestamp := t, response_data := d,
                 response_status := si, response_time := rt }
      | none => none
  | _, _, _, _ => none

/-- `asyncio.Queue`: a FIFO buffer with a `maxsize` bound, where
`maxsize = 0` (the constructor default) means the capacity is
infinite. -/
structure AsyncQueue (α : Type) where
  maxsize : Nat
  items : List α

/-- `Queue.full()`: true when the bound is positive and reached; with
`maxsize = 0` it is never true, and `put` never suspends. -/
def qfull {α : Type} (q : AsyncQueue α) : Bool :=
  if q.maxsize = 0 then false else decide (q.maxsize ≤ q.items.length)

/-- Effect of a completed `Queue.put(x)`: append `x` at the tail. A put
that finds a bounded queue full suspends and performs this same append
once room is freed, so the completed effect is always an ordered
append. -/
def aput {α : Type} (q : AsyncQueue α) (x : α) : AsyncQueue α :=
  { q with items := q.items ++ [x] }

/-- `Queue.get()`: the head item and the remaining queue, or `none` when
the call would suspend on an empty queue. -/
def aget {α : Type} (q : AsyncQueue α) : Option (α × AsyncQueue α) :=
  match q.items with
  | [] => none
  | x :: rest => some (x, { q with items := rest })

/-- The queue created at main.py line 115: `asyncio.Queue()` with the
default `maxsize=0`, holding the serialized health records. -/
def mainQueue : AsyncQueue Json :=
  { maxsize := 0, items := [] }

/-! ## Producer (the Health Poller, main.py lines 26-41) -/

/-- Outcome of one `session.get(url)` probe: a protocol response with a
status and body, or a transport-level exception (connection refused,
DNS failure, timeout) raised by aiohttp. -/
inductive ProbeOutcome where
  | ok (status : Int) (body : String)
  | transportError (err : String)

/-- One iteration worth of external inputs: the probe outcome, the two
`time.time()` readings around it, and the `datetime.now().timestamp()`
reading. -/
structure ProbeSample where
  outcome : ProbeOutcome
  startTime : ℚ
  endTime : ℚ
  now : ℚ

/-- State owned or shared by the Producer task: the `health_data` dict it
reuses across iterations, and the shared queue. -/
structure ProducerState where
  healthData : List (String × Json)
  queue : AsyncQueue Json

/-- Producer state on entry to the loop: the empty dict of line 27 and
the empty queue of line 115. -/
def initProducerState : ProducerState :=
  { healthData := [], queue := mainQueue }

/-- One iteration of the Producer loop body (lines 29-41). On a
successful probe it performs the four dict assignments, serializes the
dict and puts the result on the queue. A transport-level exception from
`session.get` is not caught anywhere in `Producer`, so the iteration
ends in `Except.error`. -/
def producerIter (st : ProducerState) (p : ProbeSample) :
    Except String ProducerState :=
  match p.outcome with
  | ProbeOutcome.transportError e => Except.error e
  | ProbeOutcome.ok status body =>
      let hd := healthDictFrom st.healthData
        { timestamp := p.now, response_data := body,
          response_status := status,
          response_time := p.endTime - p.startTime }
      Except.ok { healthData := hd, queue := aput st.queue (Json.obj hd) }

/-- The Producer `while True` loop run over a finite prefix of probe
samples. An uncaught exception terminates the coroutine: the remaining
samples are never probed, and the function returns the state visible to
the rest of the process (the shared queue) together with the escaped
exception, if any. -/
def producerRun (st : ProducerState) :
    List ProbeSample → ProducerState × Option String
  | [] => (st, none)
  | p :: rest =>
      match producerIter st p with
      | Except.ok st' => producerRun st' rest
      | Except.error e => (st, some e)

/-- Number of records an iteration pushes onto the queue. -/
def pushCount (st : ProducerState) (p : ProbeSample) : Nat :=
  match producerIter st p with
  | Except.ok st' => st'.queue.items.length - st.queue.items.length
  | Except.error _ => 0

/-- Start times of successive probes under fixed-delay polling: iteration
`n` records `start_time`, the probe takes `d n` seconds, and after the
enqueue the loop sleeps `interval` seconds (line 41) before the next
`start_time` reading. -/
def probeStart (t0 interval : ℚ) (d : ℕ → ℚ) : ℕ → ℚ
  | 0 => t0
  | n + 1 => probeStart t0 interval d n + d n + interval

/-! ## Relay (the `Consumer` coroutine, main.py lines 46-56) -/

/-- The topic literal the Relay passes to `send_and_wait` at line 54. -/
def relayPublishTopic : String := "exercise1"

/-- State of the Relay task: the shared queue and the list of
`(topic, payload)` pairs published to Kafka so far, in order. -/
structure RelayState where
  queue : AsyncQueue Json
  published : List (String × Json)

/-- One iteration of the Relay loop (lines 49-56): `await q.get()`
(suspending, modelled as a no-op wait, when the queue is empty), then
`send_and_wait('exercise1', message)` with the dequeued payload
unchanged. -/
def relayStep (st : RelayState) : RelayState :=
  match aget st.queue with
  | none => st
  | some (m, q') =>
      { queue := q', published := st.published ++ [(relayPublishTopic, m)] }

/-! ## Queue trace semantics (Producer puts interleaved with Relay gets) -/

/-- One queue operation of the Poller/Relay pair: a Producer
`await q.put(x)` or a Relay `await q.get()`. -/
inductive QOp (α : Type) where
  | put (x : α)
  | get

/-- A queue together with the list of values the Relay has dequeued, in
dequeue order. -/
structure QTrace (α : Type) where
  q : AsyncQueue α
  gotten : List α

/-- Interpret one queue operation: a put appends (after suspending if the
queue is bounded and full); a get takes the head, or keeps waiting on an
empty queue. -/
def qopStep {α : Type} (st : QTrace α) : QOp α → QTrace α
  | QOp.put x => { q := aput st.q x, gotten := st.gotten }
  | QOp.get =>
      match aget st.q with
      | none => st
      | some (x, q') => { q := q', gotten := st.gotten ++ [x] }

/-- Run a whole interleaving of puts and gets. -/
def runOps {α : Type} (st : QTrace α) (ops : List (QOp α)) : QTrace α :=
  ops.foldl qopStep st

/-! ## Sink (the `KConsumer` coroutine, main.py lines 62-82) -/

/-- The parameter tuple bound at lines 72-77 and handed to
`pg_cur.execute`: the `timestamp`, `response_data`, `response_status`
and `response_time` values extracted from the parsed message. -/
def Row : Type := Json × Json × Json × Json

/-- A message fetched from Kafka, given by the outcome of
`json.loads(msg.value)` on it: a parsed JSON value, or the decode
exception text. -/
def SinkMsg : Type := Except String Json

/-- The per-message unit of work of the Sink try block (lines 68-80):
`json.loads`, the four key extractions (a missing key raises
`KeyError`), then `execute` plus `commit`, whose possible database
failure is given by the `insertOutcome` oracle (`none` = success,
`some e` = raised error `e`). The result is the inserted row or the
exception caught by the `except` clause. -/
def sinkUnit (insertOutcome : Row → Option String) (m : SinkMsg) :
    Except String Row :=
  match m with
  | Except.error e => Except.error e
  | Except.ok j =>
      match jsonGet j "timestamp", jsonGet j "response_data",
            jsonGet j "response_status", jsonGet j "response_time" with
      | some t, some d, some s, some rt =>
          match insertOutcome (t, d, s, rt) with
          | some e => Except.error e
          | none => Except.ok (t, d, s, rt)
      | _, _, _, _ => Except.error "KeyError"

/-- The row a message contributes when its unit of work succeeds. -/
def okRowOf (insertOutcome : Row → Option String) (m : SinkMsg) :
    Option Row :=
  match sinkUnit insertOutcome m with
  | Except.ok row => some row
  | Except.error _ => none

/-- The error text a message contributes when its unit of work fails. -/
def errMsgOf (insertOutcome : Row → Option String) (m : SinkMsg) :
    Option String :=
  match sinkUnit insertOutcome m with
  | Except.ok _ => none
  | Except.error e => some e

/-- State of the Sink: the committed rows of the `health_data` table in
insertion order, and the error lines printed to stderr, in order. -/
structure SinkState where
  db : List Row
  errlog : List String

/-- One pass of the Sink loop body over one message: on success the row
is committed; on any exception the `except` clause at lines 81-82 prints
exactly one error line and the loop continues. -/
def sinkStep (insertOutcome : Row → Option String) (st : SinkState)
    (m : SinkMsg) : SinkState :=
  match sinkUnit insertOutcome m with
  | Except.ok row => { db := st.db ++ [row], errlog := st.errlog }
  | Except.error e => { db := st.db, errlog := st.errlog ++ [e] }

/-- The Sink subscription loop run over a finite prefix of the message
stream: every message is processed, none terminates the loop. -/
def sinkRun (insertOutcome : Row → Option String) (st : SinkState)
    (msgs : List SinkMsg) : SinkState :=
  msgs.foldl (sinkStep insertOutcome) st

/-! ## Supervisor (`main`, main.py lines 85-141) -/

/-- The configuration dict read from `config.json` (fields used at lines
105-123). -/
structure Config where
  url_to_monitor : String
  sleep_duration : ℚ
  kafka_bootstrap : String
  kafka_topic : String
  pg_uri : String

/-- The topic the `AIOKafkaConsumer` subscribes to at line 109: the
configured `kafka_topic`. -/
def kconsumerTopic (c : Config) : String := c.kafka_topic

/-- Whether a record published by the Relay is delivered to the Sink
subscription: Kafka delivers a message to a subscriber exactly when the
publish topic equals the subscribed topic. -/
def recordReachesSink (c : Config) : Bool :=
  relayPublishTopic == kconsumerTopic c

/-- One supervisor action from the shutdown path of `main` (lines
127-141). A `relayDrainStep` is what draining one queued record would
be; it is listed here so the shutdown script can be compared against
it. -/
inductive SupAction where
  | cancelPoller
  | cancelRelay
  | cancelSink
  | relayDrainStep
  | closeResources
deriving DecidableEq, Repr

/-- Supervisor-level state: the shared queue, the records the Relay has
forwarded to the topic, cancellation flags of the three tasks, and
whether the teardown of the `finally` block has run. -/
structure SupState where
  queue : AsyncQueue Json
  forwarded : List Json
  pollerCancelled : Bool
  relayCancelled : Bool
  sinkCancelled : Bool
  stopped : Bool

/-- Interpret one supervisor action. A drain step only moves a record if
the Relay is still alive. -/
def supStep (st : SupState) : SupAction → SupState
  | SupAction.cancelPoller => { st with pollerCancelled := true }
  | SupAction.cancelRelay => { st with relayCancelled := true }
  | SupAction.cancelSink => { st with sinkCancelled := true }
  | SupAction.relayDrainStep =>
      if st.relayCancelled then st
      else
        match aget st.queue with
        | none => st
        | some (m, q') =>
            { st with queue := q', forwarded := st.forwarded ++ [m] }
  | SupAction.closeResources => { st with stopped := true }

/-- The action sequence `main` executes on the shutdown signal: the
`except KeyboardInterrupt` handler cancels the producer task, then at
once cancels both consumer tasks — there is no await between the cancel
loops, so no drain step runs — and the `finally` block closes the
resources. -/
def shutdownScript : List SupAction :=
  [SupAction.cancelPoller, SupAction.cancelRelay, SupAction.cancelSink,
   SupAction.closeResources]

/-- Run a list of supervisor actions in order. -/
def runSup (st : SupState) (acts : List SupAction) : SupState :=
  acts.foldl supStep st

/-- A running pipeline state holding exactly one still-unforwarded
record when the shutdown signal arrives. -/
def preShutdownState : SupState :=
  { queue := { maxsize := 0, items := [Json.str "pending-record"] },
    forwarded := [], pollerCancelled := false, relayCancelled := false,
    sinkCancelled := false, stopped := false }

/-! ## Teardown (the `finally` block, main.py lines 137-141) -/

/-- The four closures of the `finally` block, in source order. -/
inductive CloseAction where
  | kproducerStop
  | kconsumerStop
  | pgCurClose
  | pgConClose
deriving DecidableEq, Repr

/-- The close sequence as written at lines 138-141. -/
def teardownSeq : List CloseAction :=
  [CloseAction.kproducerStop, CloseAction.kconsumerStop,
   CloseAction.pgCurClose, CloseAction.pgConClose]

/-- Run a sequence of close calls the way the `finally` block does: each
call is a bare statement with no surrounding try, so the first failure
(given by the `outcome` oracle) propagates immediately and the remaining
calls are never attempted. Returns the closes attempted, in order, and
the escaped exception if any. -/
def runCloses (outcome : CloseAction → Option String) :
    List CloseAction → List CloseAction × Option String
  | [] => ([], none)
  | a :: rest =>
      match outcome a with
      | some e => ([a], some e)
      | none =>
          let r := runCloses outcome rest
          (a :: r.1, r.2)

/-- The whole teardown of the `finally` block. -/
def teardown (outcome : CloseAction → Option String) :
    List CloseAction × Option String :=
  runCloses outcome teardownSeq

/-- An oracle under which the first close, `kproducer.stop()`, raises. -/
def failFirstClose : CloseAction → Option String
  | CloseAction.kproducerStop => some "producer stop failed"
  | _ => none

/-- An oracle under which the second close, `kconsumer.stop()`, raises. -/
def failSecondClose : CloseAction → Option String
  | CloseAction.kconsumerStop => some "consumer stop failed"
  | _ => none

/-! ## Helper lemmas -/

/-- The four assignments on the initially empty `health_data` dict
produce the four fields in insertion order. -/
theorem healthDictFrom_nil (r : HealthRecord) :
    healthDictFrom [] r =
      [("timestamp", Json.num r.timestamp),
       ("response_data", Json.str r.response_data),
       ("response_status", Json.num (r.response_status : ℚ)),
       ("response_time", Json.num r.response_time)] := by
  simp [healthDictFrom, dictSet]

/-- Re-running the four assignments on a dict already holding the four
fields overwrites them in place: the previous values are gone and only
the new iteration values remain. -/
theorem healthDictFrom_overwrite (r₁ r₂ : HealthRecord) :
    healthDictFrom (healthDictFrom [] r₁) r₂ = healthDictFrom [] r₂ := by
  simp [healthDictFrom, dictSet]

/-- Unfolding: running a first operation then the rest. -/
theorem runOps_cons {α : Type} (st : QTrace α) (op : QOp α)
    (ops : List (QOp α)) :
    runOps st (op :: ops) = runOps (qopStep st op) ops := rfl

/-- Running only puts appends the put values to the queue in order and
dequeues nothing. -/
theorem runOps_puts {α : Type} (rs : List α) (st : QTrace α) :
    runOps st (rs.map QOp.put) =
      { q := { maxsize := st.q.maxsize, items := st.q.items ++ rs },
        gotten := st.gotten } := by
  induction rs generalizing st with
  | nil => simp [runOps]
  | cons x rs ih =>
      rw [List.map_cons, runOps_cons]
      rw [show qopStep st (QOp.put x) =
        { q := aput st.q x, gotten := st.gotten } from rfl]
      rw [ih { q := aput st.q x, gotten := st.gotten }]
      simp [aput]

/-- Draining a queue of `n` pending items with `n` gets hands over
exactly those items, in order, leaving the queue empty. -/
theorem runOps_gets_drain {α : Type} (rs : List α) (mx : Nat)
    (g : List α) :
    runOps { q := { maxsize := mx, items := rs }, gotten := g }
      (List.replicate rs.length QOp.get) =
      { q := { maxsize := mx, items := [] }, gotten := g ++ rs } := by
  induction rs generalizing g with
  | nil => simp [runOps]
  | cons x rs ih =>
      rw [List.length_cons, List.replicate_succ, runOps_cons]
      rw [show qopStep
        { q := { maxsize := mx, items := x :: rs }, gotten := g }
        QOp.get =
        { q := { maxsize := mx, items := rs }, gotten := g ++ [x] }
        from rfl]
      rw [ih (g ++ [x])]
      simp

/-- A message whose unit of work succeeds contributes no error line. -/
theorem errMsgOf_eq_none (o : Row → Option String) (m : SinkMsg)
    (h : (okRowOf o m).isSome = true) : errMsgOf o m = none := by
  cases hu : sinkUnit o m with
  | ok r => simp [errMsgOf, hu]
  | error e => simp [okRowOf, hu] at h

/-- A message whose unit of work fails contributes an error line. -/
theorem errMsgOf_isSome (o : Row → Option String) (m : SinkMsg)
    (h : okRowOf o m = none) : (errMsgOf o m).isSome = true := by
  cases hu : sinkUnit o m with
  | ok r => simp [okRowOf, hu] at h
  | error e => simp [errMsgOf, hu]

/-- Running the Sink over a message stream appends exactly the rows of
the successful messages to the table and exactly one error line per
failed message to the log, both in stream order. -/
theorem sinkRun_spec (o : Row → Option String) (msgs : List SinkMsg)
    (st : SinkState) :
    (sinkRun o st msgs).db = st.db ++ msgs.filterMap (okRowOf o) ∧
    (sinkRun o st msgs).errlog =
      st.errlog ++ msgs.filterMap (errMsgOf o) := by
  induction msgs generalizing st with
  | nil => simp [sinkRun]
  | cons m msgs ih =>
      have hstep : sinkRun o st (m :: msgs) =
          sinkRun o (sinkStep o st m) msgs := rfl
      cases hu : sinkUnit o m with
      | ok r =>
          have h1 : sinkStep o st m =
              { db := st.db ++ [r], errlog := st.errlog } := by
            simp [sinkStep, hu]
          rw [hstep, h1]
          rcases ih { db := st.db ++ [r], errlog := st.errlog } with
            ⟨hdb, herr⟩
          constructor
          · rw [hdb]; simp [okRowOf, hu]
          · rw [herr]; simp [errMsgOf, hu]
      | error e =>
          have h1 : sinkStep o st m =
              { db := st.db, errlog := st.errlog ++ [e] } := by
            simp [sinkStep, hu]
          rw [hstep, h1]
          rcases ih { db := st.db, errlog := st.errlog ++ [e] } with
            ⟨hdb, herr⟩
          constructor
          · rw [hdb]; simp [okRowOf, hu]
          · rw [herr]; simp [errMsgOf, hu]

/-- When every element of a list yields a value, `filterMap` keeps the
list length. -/
theorem filterMap_length_all_some {α β : Type} (f : α → Option β)
    (l : List α) (h : ∀ a ∈ l, (f a).isSome = true) :
    (l.filterMap f).length = l.length := by
  induction l with
  | nil => simp
  | cons a l ih =>
      have ha : (f a).isSome = true := h a (by simp)
      rcases Option.isSome_iff_exists.mp ha with ⟨b, hb⟩
      simp [List.filterMap_cons, hb,
        ih (fun x hx => h x (by simp [hx]))]

/-! ## Claim theorems -/

/-- Claim C4 (confirmed): for every HealthRecord, parsing the JSON the
Poller serializes and extracting the four fields the way the Sink does
re-materializes exactly the original record. -/
theorem C4_roundtrip (r : HealthRecord) : decode (encode r) = some r := by
  simp [decode, encode, healthDictFrom, dictSet, jsonGet, lookupField,
    ratToInt, Rat.den_intCast, Rat.num_intCast]

/-- Claim C5 (confirmed): enqueuing records r1, ..., rn in order and
then letting the Relay perform n gets hands the Relay exactly
r1, ..., rn in the same order and leaves the queue empty: no record is
duplicated, dropped or reordered between enqueue and dequeue. -/
theorem C5_fifo {α : Type} (rs : List α) :
    runOps { q := { maxsize := 0, items := [] }, gotten := [] }
      (rs.map QOp.put ++ List.replicate rs.length QOp.get) =
      { q := { maxsize := 0, items := [] }, gotten := rs } := by
  have hsplit : runOps
      { q := { maxsize := 0, items := ([] : List α) }, gotten := [] }
      (rs.map QOp.put ++ List.replicate rs.length QOp.get) =
      runOps (runOps
        { q := { maxsize := 0, items := [] }, gotten := [] }
        (rs.map QOp.put)) (List.replicate rs.length QOp.get) := by
    simp [runOps, List.foldl_append]
  rw [hsplit, runOps_puts]
  simpa using runOps_gets_drain rs 0 []

/-- Claim C3 counterexample: the queue of main.py line 115 is created
with the default `maxsize = 0`, and even with a million pending records
it is not full, so the next enqueue does not suspend — there is no
finite bound k at which the (k+1)-th put blocks. -/
theorem C3_counterexample :
    mainQueue.maxsize = 0 ∧
    qfull { maxsize := mainQueue.maxsize,
            items := List.replicate 1000000 (Json.str "record") } =
      false :=
  ⟨rfl, rfl⟩

/-- Claim C3 (corrected): the queue is created unbounded
(`maxsize = 0`), so an enqueue never suspends, whatever the number of
pending records; an enqueue appends at the tail, so no pending record is
dropped or overwritten. -/
theorem C3_unbounded_never_blocks (xs : List Json) (x : Json) :
    qfull { maxsize := mainQueue.maxsize, items := xs } = false ∧
    (aput { maxsize := mainQueue.maxsize, items := xs } x).items =
      xs ++ [x] := by
  constructor
  · simp [qfull, mainQueue]
  · simp [aput]

/-- Claim C1 counterexample: starting from the initial Producer state,
a probe that fails at the transport level makes the loop return with the
escaped exception: nothing is enqueued for the failed probe, and a
following healthy probe is never performed, so the final queue is still
empty. -/
theorem C1_counterexample :
    producerRun initProducerState
      [{ outcome := ProbeOutcome.transportError "ConnectionRefusedError",
         startTime := 0, endTime := 0, now := 0 },
       { outcome := ProbeOutcome.ok 200 "ok",
         startTime := 1, endTime := 2, now := 1 }] =
      (initProducerState, some "ConnectionRefusedError") :=
  rfl

/-- Claim C1 (corrected): the Producer catches nothing, so on a
transport-level probe failure the exception escapes the loop at once:
the state is unchanged (no sentinel record is built or enqueued), the
remaining iterations never run, and the coroutine terminates with the
exception. -/
theorem C1_transport_failure_escapes (st : ProducerState) (e : String)
    (t₁ t₂ t₃ : ℚ) (rest : List ProbeSample) :
    producerRun st
      ({ outcome := ProbeOutcome.transportError e,
         startTime := t₁, endTime := t₂, now := t₃ } :: rest) =
      (st, some e) := by
  simp [producerRun, producerIter]

/-- Claim C2 (confirmed): when every message before and after the bad
one succeeds and the bad message fails anywhere in the per-message unit
of work, the Sink commits exactly the rows of the good messages, in
order, commits one row per good message, and prints exactly one error
line; the loop processes the whole stream. -/
theorem C2_sink_fault_isolation (o : Row → Option String)
    (pre post : List SinkMsg) (bad : SinkMsg)
    (hpre : ∀ m ∈ pre, (okRowOf o m).isSome = true)
    (hbad : okRowOf o bad = none)
    (hpost : ∀ m ∈ post, (okRowOf o m).isSome = true) :
    (sinkRun o { db := [], errlog := [] } (pre ++ bad :: post)).db =
      pre.filterMap (okRowOf o) ++ post.filterMap (okRowOf o) ∧
    (sinkRun o { db := [], errlog := [] }
        (pre ++ bad :: post)).db.length =
      pre.length + post.length ∧
    (sinkRun o { db := [], errlog := [] }
        (pre ++ bad :: post)).errlog.length = 1 := by
  rcases sinkRun_spec o (pre ++ bad :: post) { db := [], errlog := [] }
    with ⟨hdb, herr⟩
  have hdb2 : (sinkRun o { db := [], errlog := [] }
      (pre ++ bad :: post)).db =
      pre.filterMap (okRowOf o) ++ post.filterMap (okRowOf o) := by
    rw [hdb]
    simp [List.filterMap_append, List.filterMap_cons, hbad]
  refine ⟨hdb2, ?_, ?_⟩
  · rw [hdb2]
    simp [filterMap_length_all_some (okRowOf o) pre hpre,
      filterMap_length_all_some (okRowOf o) post hpost]
  · have hpre0 : pre.filterMap (errMsgOf o) = [] := by
      rw [List.filterMap_eq_nil_iff]
      intro m hm
      exact errMsgOf_eq_none o m (hpre m hm)
    have hpost0 : post.filterMap (errMsgOf o) = [] := by
      rw [List.filterMap_eq_nil_iff]
      intro m hm
      exact errMsgOf_eq_none o m (hpost m hm)
    rcases Option.isSome_iff_exists.mp (errMsgOf_isSome o bad hbad)
      with ⟨e, he⟩
    rw [herr]
    simp [List.filterMap_append, List.filterMap_cons, hpre0, hpost0, he]

/-- Oracle for the C2 witness: every database insert and commit
succeeds. -/
def witnessInsertOk : Row → Option String := fun _ => none

/-- First well-formed message of the C2 witness stream. -/
def witnessMsg₁ : SinkMsg :=
  Except.ok (encode { timestamp := 1, response_data := "ok",
                      response_status := 200, response_time := 1 / 20 })

/-- Second well-formed message of the C2 witness stream. -/
def witnessMsg₂ : SinkMsg :=
  Except.ok (encode { timestamp := 2, response_data := "down",
                      response_status := 503, response_time := 3 / 2 })

/-- The malformed message of the C2 witness stream: `json.loads` raised
on it. -/
def witnessBadMsg : SinkMsg := Except.error "Expecting value"

/-- Witness for claim C2 at a concrete three-message stream whose middle
message is malformed. -/
theorem C2_witness :
    (sinkRun witnessInsertOk { db := [], errlog := [] }
        ([witnessMsg₁] ++ witnessBadMsg :: [witnessMsg₂])).db =
      [witnessMsg₁].filterMap (okRowOf witnessInsertOk) ++
        [witnessMsg₂].filterMap (okRowOf witnessInsertOk) ∧
    (sinkRun witnessInsertOk { db := [], errlog := [] }
        ([witnessMsg₁] ++ witnessBadMsg :: [witnessMsg₂])).db.length =
      [witnessMsg₁].length + [witnessMsg₂].length ∧
    (sinkRun witnessInsertOk { db := [], errlog := [] }
        ([witnessMsg₁] ++ witnessBadMsg :: [witnessMsg₂])).errlog.length
      = 1 :=
  C2_sink_fault_isolation witnessInsertOk [witnessMsg₁] [witnessMsg₂]
    witnessBadMsg
    (by intro m hm; simp only [List.mem_singleton] at hm; subst hm; rfl)
    rfl
    (by intro m hm; simp only [List.mem_singleton] at hm; subst hm; rfl)

/-- Claim C6 counterexample: with one unforwarded record in the queue at
the moment of the shutdown signal, running the shutdown path of `main`
reaches the stopped state with the record still queued and nothing
forwarded: the Relay is cancelled together with the Poller, before any
draining. -/
theorem C6_counterexample :
    (runSup preShutdownState shutdownScript).stopped = true ∧
    (runSup preShutdownState shutdownScript).forwarded = [] ∧
    (runSup preShutdownState shutdownScript).queue.items =
      [Json.str "pending-record"] :=
  ⟨rfl, rfl, rfl⟩

/-- Claim C6 (corrected): on the shutdown signal the handler cancels the
Poller and then immediately cancels the Relay and the Sink — its action
script contains no drain step — so from every state the process reaches
the stopped state with the queue contents and the forwarded list exactly
as they were: no new record is enqueued after the signal, and none of
the queued records is forwarded before the process stops. -/
theorem C6_shutdown_does_not_drain (st : SupState) :
    SupAction.relayDrainStep ∉ shutdownScript ∧
    (runSup st shutdownScript).queue.items = st.queue.items ∧
    (runSup st shutdownScript).forwarded = st.forwarded ∧
    (runSup st shutdownScript).pollerCancelled = true ∧
    (runSup st shutdownScript).relayCancelled = true ∧
    (runSup st shutdownScript).sinkCancelled = true ∧
    (runSup st shutdownScript).stopped = true := by
  refine ⟨by decide, ?_, ?_, ?_, ?_, ?_, ?_⟩ <;>
    simp [runSup, shutdownScript, supStep]

/-- Claim C7 counterexample: when the first close, `kproducer.stop()`,
raises, the teardown attempts only that close — the consumer stop, the
cursor close and the connection close are never attempted — and the
exception escapes instead of being logged. -/
theorem C7_counterexample :
    teardown failFirstClose =
      ([CloseAction.kproducerStop], some "producer stop failed") :=
  rfl

/-- Claim C7 (corrected): the `finally` block runs the four closes as
bare sequential statements. When every close succeeds, all four are
attempted in order and nothing is raised; but when a close fails, the
closes after it are never attempted and its exception propagates: the
attempted list is the prefix up to and including the first failing
close. -/
theorem C7_teardown_stops_at_first_failure
    (outcome : CloseAction → Option String) :
    ((∀ a ∈ teardownSeq, outcome a = none) →
      teardown outcome = (teardownSeq, none)) ∧
    (∀ pre a post e, teardownSeq = pre ++ a :: post →
      (∀ b ∈ pre, outcome b = none) → outcome a = some e →
      teardown outcome = (pre ++ [a], some e)) := by
  constructor
  · intro hall
    have general : ∀ l : List CloseAction, (∀ a ∈ l, outcome a = none) →
        runCloses outcome l = (l, none) := by
      intro l
      induction l with
      | nil => intro _; rfl
      | cons a rest ih =>
          intro h
          have ha : outcome a = none := h a (by simp)
          have hrest := ih (fun b hb => h b (by simp [hb]))
          simp [runCloses, ha, hrest]
    exact general teardownSeq hall
  · intro pre a post e hseq hpre ha
    have general : ∀ pre₀ : List CloseAction,
        (∀ b ∈ pre₀, outcome b = none) →
        runCloses outcome (pre₀ ++ a :: post) = (pre₀ ++ [a], some e) := by
      intro pre₀
      induction pre₀ with
      | nil => intro _; simp [runCloses, ha]
      | cons b rest ih =>
          intro h
          have hb : outcome b = none := h b (by simp)
          have hrest := ih (fun c hc => h c (by simp [hc]))
          simp [runCloses, hb, hrest]
    rw [teardown, hseq]
    exact general pre hpre

/-- Witness for claim C7: under the oracle where the second close
raises, the teardown attempts exactly the first two closes and the
exception of the second escapes. -/
theorem C7_witness :
    teardown failSecondClose =
      ([CloseAction.kproducerStop, CloseAction.kconsumerStop],
       some "consumer stop failed") :=
  (C7_teardown_stops_at_first_failure failSecondClose).2
    [CloseAction.kproducerStop] CloseAction.kconsumerStop
    [CloseAction.pgCurClose, CloseAction.pgConClose]
    "consumer stop failed" rfl (by decide) rfl

/-- Claim C8 (confirmed): polling is fixed-delay — the start of probe
n+1 follows the start of probe n by the duration of probe n plus the
configured sleep interval, the sleep coming after the probe and the
enqueue — and a completed iteration performs exactly one queue push. -/
theorem C8_fixed_delay (t₀ interval : ℚ) (d : ℕ → ℚ) (n : ℕ)
    (st : ProducerState) (status : Int) (body : String) (x y z : ℚ) :
    probeStart t₀ interval d (n + 1) - probeStart t₀ interval d n =
      d n + interval ∧
    pushCount st { outcome := ProbeOutcome.ok status body,
                   startTime := x, endTime := y, now := z } = 1 := by
  constructor
  · rw [probeStart]
    ring
  · simp [pushCount, producerIter, aput]

/-- Claim C9 (confirmed): what the Producer enqueues is a serialized
snapshot, so although the next iteration mutates the reused
`health_data` dict in place (the final dict holds only the second
iteration values), the record enqueued by the first iteration still
carries exactly the first iteration values; and the Relay forwards a
dequeued record unchanged — it only reads it. -/
theorem C9_enqueued_record_immutable (s₁ s₂ : Int) (b₁ b₂ : String)
    (st₁ en₁ now₁ st₂ en₂ now₂ : ℚ) (mx : Nat) (m : Json)
    (rest : List Json) (pub : List (String × Json)) :
    producerRun initProducerState
      [{ outcome := ProbeOutcome.ok s₁ b₁,
         startTime := st₁, endTime := en₁, now := now₁ },
       { outcome := ProbeOutcome.ok s₂ b₂,
         startTime := st₂, endTime := en₂, now := now₂ }] =
      ({ healthData := healthDictFrom []
           { timestamp := now₂, response_data := b₂,
             response_status := s₂, response_time := en₂ - st₂ },
         queue := { maxsize := 0, items :=
           [Json.obj (healthDictFrom []
              { timestamp := now₁, response_data := b₁,
                response_status := s₁, response_time := en₁ - st₁ }),
            Json.obj (healthDictFrom []
              { timestamp := now₂, response_data := b₂,
                response_status := s₂, response_time := en₂ - st₂ })] } },
       none) ∧
    relayStep { queue := { maxsize := mx, items := m :: rest },
                published := pub } =
      { queue := { maxsize := mx, items := rest },
        published := pub ++ [(relayPublishTopic, m)] } := by
  constructor
  · simp [producerRun, producerIter, initProducerState, mainQueue, aput,
      healthDictFrom_overwrite]
  · simp [relayStep, aget]

/-- Claim C10 (confirmed): the Relay publishes every record to the
literal topic name of line 54, while the Sink subscribes to the
configured topic of line 109, so a published record reaches the Sink
exactly when the configured topic equals that literal. -/
theorem C10_topic_coupling (c : Config) (mx : Nat) (m : Json)
    (rest : List Json) (pub : List (String × Json)) :
    (relayStep { queue := { maxsize := mx, items := m :: rest },
                 published := pub }).published =
      pub ++ [(relayPublishTopic, m)] ∧
    relayPublishTopic = "exercise1" ∧
    kconsumerTopic c = c.kafka_topic ∧
    (recordReachesSink c = true ↔ c.kafka_topic = "exercise1") := by
  refine ⟨by simp [relayStep, aget], rfl, rfl, ?_⟩
  constructor
  · intro h
    exact (eq_of_beq h).symm
  · intro h
    show (relayPublishTopic == kconsumerTopic c) = true
    rw [show kconsumerTopic c = c.kafka_topic from rfl, h]
    exact beq_self_eq_true relayPublishTopic

end WebsiteMonitor
